import Mathlib

/-!
Verification of the credential-store resolution and composition logic of
`oras-credentials-go` (file `store.go`), as a shallow embedding in Lean 4.

The embedding covers:
* `auth.Credential` as a record of four strings with a distinguished empty value;
* the external `config.Config` view, abstracted as a record of the values its
  interface methods return (`GetCredentialHelper`, `CredentialsStore`,
  `IsAuthConfigured`) plus an oracle for the outcome of `SetCredentialsStore`;
* `dynamicStore` (`NewStore`, `Get`, `Put`, `Delete`, `getHelperSuffix`,
  `getStore`): backend selection returns a `SelectedBackend` descriptor, and
  every operation returns, alongside its result, the list of external calls it
  performed (`ExtCall`), so that delegation and the once-only persist side
  effect are observable; the `sync.Once` guard is an explicit `onceFired` flag,
  faithful to the sequential semantics of `Once.Do`;
* `storeWithFallbacks` (`NewStoreWithFallbacks`, `Get`, `Put`, `Delete`): the
  `Get` loop as list recursion, and `Put`/`Delete` via head access, where the
  outer `Option` models the panic of indexing `stores[0]` on an empty slice.
-/

namespace OrasCredentials

/-- The credential value type (`auth.Credential` from oras-go): a
username/password pair, a refresh token, and an access token. -/
structure Credential where
  username : String
  password : String
  refreshToken : String
  accessToken : String
deriving DecidableEq, Repr

/-- The distinguished empty credential (`auth.EmptyCredential`). -/
def EmptyCredential : Credential := ⟨"", "", "", ""⟩

/-- Go error values: either a base message or an error wrapped with added
context, as produced by `fmt.Errorf` with a message and a wrapped cause. -/
inductive GoError where
  | msg : String → GoError
  | wrap : String → GoError → GoError
deriving DecidableEq, Repr

/-- A concrete backend store (the `Store` interface): `Get`, `Put`, `Delete`
as pure response functions. A `Get` response is a credential together with an
optional error; `Put` and `Delete` respond with an optional error. -/
structure Store where
  get : String → Credential × Option GoError
  put : String → Credential → Option GoError
  delete : String → Option GoError

/-! ### Fallback chain (`storeWithFallbacks`) -/

/-- The `storeWithFallbacks` struct: an ordered list of backend stores. -/
structure storeWithFallbacks where
  stores : List Store

/-- The loop body of `storeWithFallbacks.Get` over the store list: for each
store call `Get`; on error stop with the empty credential and that error; on a
non-empty credential stop with it; otherwise continue; exhausted means the
empty credential with no error. -/
def fallbackGetLoop : List Store → String → Credential × Option GoError
  | [], _ => (EmptyCredential, none)
  | s :: rest, serverAddress =>
    match s.get serverAddress with
    | (_, some e) => (EmptyCredential, some e)
    | (cred, none) =>
      if cred ≠ EmptyCredential then (cred, none)
      else fallbackGetLoop rest serverAddress

/-- The number of stores whose `Get` is invoked by the `storeWithFallbacks.Get`
loop: each iteration performs exactly one `Get` call before deciding whether to
stop or continue. -/
def fallbackGetCount : List Store → String → Nat
  | [], _ => 0
  | s :: rest, serverAddress =>
    match s.get serverAddress with
    | (_, some _) => 1
    | (cred, none) =>
      if cred ≠ EmptyCredential then 1
      else 1 + fallbackGetCount rest serverAddress

/-- Method `storeWithFallbacks.Get`: search the stores in order. -/
def storeWithFallbacks.Get (sf : storeWithFallbacks) (serverAddress : String) :
    Credential × Option GoError :=
  fallbackGetLoop sf.stores serverAddress

/-- Method `storeWithFallbacks.Put`: delegates to `sf.stores[0]`. The outer `none`
models the runtime panic of indexing an empty slice; `some r` is the primary
store's own result `r`. -/
def storeWithFallbacks.Put (sf : storeWithFallbacks) (serverAddress : String)
    (cred : Credential) : Option (Option GoError) :=
  match sf.stores with
  | [] => none
  | s :: _ => some (s.put serverAddress cred)

/-- Method `storeWithFallbacks.Delete`: delegates to `sf.stores[0]`, with the same
panic modelling as `Put`. -/
def storeWithFallbacks.Delete (sf : storeWithFallbacks) (serverAddress : String) :
    Option (Option GoError) :=
  match sf.stores with
  | [] => none
  | s :: _ => some (s.delete serverAddress)

/-- The value returned by `NewStoreWithFallbacks`: either the primary store
itself, unwrapped, or a `storeWithFallbacks` composite. -/
inductive StoreVal where
  | base : Store → StoreVal
  | chain : storeWithFallbacks → StoreVal

/-- Constructor `NewStoreWithFallbacks`: with zero fallbacks return the primary itself;
otherwise build the composite whose store list is the primary followed by the
fallbacks (`append([]Store{primary}, fallbacks...)`). -/
def NewStoreWithFallbacks (primary : Store) (fallbacks : List Store) : StoreVal :=
  if fallbacks.length = 0 then .base primary
  else .chain ⟨primary :: fallbacks⟩

/-- Calling `Get` on a `NewStoreWithFallbacks` result: a bare store answers directly, a
composite runs the fallback search. -/
def StoreVal.getOp : StoreVal → String → Credential × Option GoError
  | .base s, serverAddress => s.get serverAddress
  | .chain sf, serverAddress => storeWithFallbacks.Get sf serverAddress

/-- Calling `Put` on a `NewStoreWithFallbacks` result; for a bare store the call cannot
panic, hence always `some`. -/
def StoreVal.putOp : StoreVal → String → Credential → Option (Option GoError)
  | .base s, serverAddress, cred => some (s.put serverAddress cred)
  | .chain sf, serverAddress, cred => storeWithFallbacks.Put sf serverAddress cred

/-- Calling `Delete` on a `NewStoreWithFallbacks` result. -/
def StoreVal.deleteOp : StoreVal → String → Option (Option GoError)
  | .base s, serverAddress => some (s.delete serverAddress)
  | .chain sf, serverAddress => storeWithFallbacks.Delete sf serverAddress

/-! ### Resolver (`dynamicStore`) -/

/-- Modelled from the spec: the external Config view (package
`internal/config`, not under `src/`), abstracted at its interface boundary.
`credentialHelpers` gives `GetCredentialHelper(address)` (empty string if none
configured for the address), `credsStore` gives `CredentialsStore()` (empty
string if no global helper configured), and `authConfigured` gives
`IsAuthConfigured()`. -/
structure Config where
  credentialHelpers : String → String
  credsStore : String
  authConfigured : Bool

/-- Method `Config.GetCredentialHelper`: the per-address helper name, or empty. -/
def Config.GetCredentialHelper (cfg : Config) (serverAddress : String) : String :=
  cfg.credentialHelpers serverAddress

/-- Method `Config.CredentialsStore`: the global helper name, or empty. -/
def Config.CredentialsStore (cfg : Config) : String :=
  cfg.credsStore

/-- Method `Config.IsAuthConfigured`: whether authentication is already configured. -/
def Config.IsAuthConfigured (cfg : Config) : Bool :=
  cfg.authConfigured

/-- Struct `StoreOptions`: options for `NewStore`. -/
structure StoreOptions where
  allowPlaintextPut : Bool

/-- The backend the resolver delegates a call to: `NewNativeStore(helper)` for
a helper suffix, or the plaintext file store with its `DisablePut` flag. -/
inductive SelectedBackend where
  | native : String → SelectedBackend
  | fileStore : Bool → SelectedBackend
deriving DecidableEq, Repr

/-- The `dynamicStore` struct: the config view, the options, the credentials
store detected at construction time, and the state of the `sync.Once` guard
(`onceFired` is true once `setCredsStoreOnce.Do` has executed its body). -/
structure dynamicStore where
  config : Config
  options : StoreOptions
  detectedCredsStore : String
  onceFired : Bool

/-- Constructor `NewStore` (the part after a successful `config.Load`): keep the config and
options; if the config reports no authentication configured, record the
platform default helper suffix (`getDefaultHelperSuffix()`, external, passed
here as `defaultHelperSuffix`), else leave it empty. -/
def NewStore (cfg : Config) (opts : StoreOptions) (defaultHelperSuffix : String) :
    dynamicStore :=
  { config := cfg
    options := opts
    detectedCredsStore := if cfg.IsAuthConfigured then "" else defaultHelperSuffix
    onceFired := false }

/-- Method `dynamicStore.getHelperSuffix`: per-address helper first, then the
configured global store, then the detected default. -/
def dynamicStore.getHelperSuffix (ds : dynamicStore) (serverAddress : String) : String :=
  let helper := ds.config.GetCredentialHelper serverAddress
  if helper ≠ "" then helper
  else
    let credsStore := ds.config.CredentialsStore
    if credsStore ≠ "" then credsStore
    else ds.detectedCredsStore

/-- Method `dynamicStore.getStore`: a native store named by the helper suffix when one
resolved, else the file store with `DisablePut = !options.AllowPlaintextPut`. -/
def dynamicStore.getStore (ds : dynamicStore) (serverAddress : String) : SelectedBackend :=
  let helper := ds.getHelperSuffix serverAddress
  if helper ≠ "" then .native helper
  else .fileStore (!ds.options.allowPlaintextPut)

/-- The responses of the external world to the resolver's delegated calls: what
each selected backend answers to `Get`/`Put`/`Delete`, and the outcome of
`config.SetCredentialsStore` for a given name. -/
structure BackendEnv where
  backendGetRes : SelectedBackend → String → Credential × Option GoError
  backendPutRes : SelectedBackend → String → Credential → Option GoError
  backendDeleteRes : SelectedBackend → String → Option GoError
  setCredsStoreRes : String → Option GoError

/-- An external call made by a resolver operation, recorded in order. -/
inductive ExtCall where
  | getCall : SelectedBackend → String → ExtCall
  | putCall : SelectedBackend → String → Credential → ExtCall
  | deleteCall : SelectedBackend → String → ExtCall
  | setCredsStoreCall : String → ExtCall
deriving DecidableEq, Repr

/-- Method `dynamicStore.Get`: delegate to the selected backend's `Get`. -/
def dynamicStore.Get (env : BackendEnv) (ds : dynamicStore) (serverAddress : String) :
    (Credential × Option GoError) × List ExtCall :=
  let b := ds.getStore serverAddress
  (env.backendGetRes b serverAddress, [.getCall b serverAddress])

/-- Method `dynamicStore.Delete`: delegate to the selected backend's `Delete`. -/
def dynamicStore.Delete (env : BackendEnv) (ds : dynamicStore) (serverAddress : String) :
    Option GoError × List ExtCall :=
  let b := ds.getStore serverAddress
  (env.backendDeleteRes b serverAddress, [.deleteCall b serverAddress])

/-- The `setCredsStoreOnce.Do` phase of `dynamicStore.Put`, reached only after
the backend `Put` succeeded: if the guard already fired, do nothing; otherwise
mark it fired and, when a creds store was detected, call
`config.SetCredentialsStore` with it — a failure there becomes the wrapped
`failed to set credsStore` error, a success updates the config view's global
helper. Returns the `returnErr` value, the new state, and the external calls
made. -/
def putPersistPhase (env : BackendEnv) (ds : dynamicStore) :
    Option GoError × dynamicStore × List ExtCall :=
  if ds.onceFired then (none, ds, [])
  else
    let fired := { ds with onceFired := true }
    if ds.detectedCredsStore ≠ "" then
      match env.setCredsStoreRes ds.detectedCredsStore with
      | some e =>
        (some (GoError.wrap "failed to set credsStore" e), fired,
          [ExtCall.setCredsStoreCall ds.detectedCredsStore])
      | none =>
        (none,
          { fired with config := { fired.config with credsStore := ds.detectedCredsStore } },
          [ExtCall.setCredsStoreCall ds.detectedCredsStore])
    else (none, fired, [])

/-- Method `dynamicStore.Put`: delegate to the selected backend's `Put`; on a backend
error return it at once (the once-guard is untouched); on success run the
persist phase and return its `returnErr`. -/
def dynamicStore.Put (env : BackendEnv) (ds : dynamicStore) (serverAddress : String)
    (cred : Credential) : Option GoError × dynamicStore × List ExtCall :=
  let b := ds.getStore serverAddress
  match env.backendPutRes b serverAddress cred with
  | some e => (some e, ds, [.putCall b serverAddress cred])
  | none =>
    let r := putPersistPhase env ds
    (r.1, r.2.1, .putCall b serverAddress cred :: r.2.2)

/-- One resolver operation of a call sequence. -/
inductive ResolverOp where
  | getOp : String → ResolverOp
  | putOp : String → Credential → ResolverOp
  | deleteOp : String → ResolverOp

/-- Execute one resolver operation: the state after it and the external calls
it made (`Get` and `Delete` leave the state unchanged). -/
def dynamicStore.step (env : BackendEnv) (ds : dynamicStore) :
    ResolverOp → dynamicStore × List ExtCall
  | .getOp a => (ds, (dynamicStore.Get env ds a).2)
  | .putOp a c =>
    let r := dynamicStore.Put env ds a c
    (r.2.1, r.2.2)
  | .deleteOp a => (ds, (dynamicStore.Delete env ds a).2)

/-- Execute a sequence of resolver operations, concatenating the external-call
traces in order. -/
def dynamicStore.run (env : BackendEnv) (ds : dynamicStore) :
    List ResolverOp → dynamicStore × List ExtCall
  | [] => (ds, [])
  | op :: ops =>
    let r1 := dynamicStore.step env ds op
    let r2 := dynamicStore.run env r1.1 ops
    (r2.1, r1.2 ++ r2.2)

/-- Whether an external call is an invocation of `config.SetCredentialsStore`. -/
def isSetCredsStoreCall : ExtCall → Bool
  | .setCredsStoreCall _ => true
  | _ => false

/-- The number of `config.SetCredentialsStore` invocations in a trace. -/
def countSetCalls (tr : List ExtCall) : Nat :=
  (tr.filter isSetCredsStoreCall).length

/-- The backend selection rule as the spec words it: per-address helper if one
is configured for the address, else the global helper if configured, else the
detected platform default if one was detected, else the plaintext file backend
with `disablePut = !allowPlaintextPut`. -/
def specSelect (perAddressHelper globalHelper detectedDefault : String)
    (allowPlaintextPut : Bool) : SelectedBackend :=
  if perAddressHelper ≠ "" then .native perAddressHelper
  else if globalHelper ≠ "" then .native globalHelper
  else if detectedDefault ≠ "" then .native detectedDefault
  else .fileStore (!allowPlaintextPut)

/-- The number of `SetCredentialsStore` invocations the resolver may still
perform: one before the `sync.Once` guard has fired, none after. -/
def onceBudget (ds : dynamicStore) : Nat :=
  if ds.onceFired then 0 else 1

/-! ### Concrete sample values for witnesses -/

/-- A sample non-empty credential. -/
def credX : Credential := ⟨"userx", "passx", "", ""⟩

/-- A second sample non-empty credential. -/
def credY : Credential := ⟨"usery", "passy", "", ""⟩

/-- A sample backend error. -/
def errE : GoError := .msg "E"

/-- A store holding nothing: every `Get` answers the empty credential. -/
def storeEmptyOK : Store :=
  ⟨fun _ => (EmptyCredential, none), fun _ _ => none, fun _ => none⟩

/-- A store answering `credX` on every `Get`. -/
def storeCredX : Store :=
  ⟨fun _ => (credX, none), fun _ _ => none, fun _ => none⟩

/-- A store answering `credY` on every `Get`. -/
def storeCredY : Store :=
  ⟨fun _ => (credY, none), fun _ _ => none, fun _ => none⟩

/-- A failing store: every call errors with `errE`, and its `Get` also returns
the (to-be-discarded) credential `credY` alongside the error. -/
def storeErrE : Store :=
  ⟨fun _ => (credY, some errE), fun _ _ => some errE, fun _ => some errE⟩

/-- A config with no authentication configured at all. -/
def cfgNoAuth : Config := ⟨fun _ => "", "", false⟩

/-- A config with authentication configured: a per-address helper for
`registry.example.com` and the global helper `helper-b`. -/
def cfgAuth : Config :=
  ⟨fun a => if a = "registry.example.com" then "helper-a" else "", "helper-b", true⟩

/-- A resolver built over `cfgNoAuth`, hence with the platform default
`osxkeychain` detected at construction. -/
def dsDetected : dynamicStore := NewStore cfgNoAuth ⟨true⟩ "osxkeychain"

/-- An environment in which every backend `Put` fails with `errE` and
everything else succeeds. -/
def envPutFails : BackendEnv :=
  ⟨fun _ _ => (EmptyCredential, none), fun _ _ _ => some errE, fun _ _ => none,
    fun _ => none⟩

/-- An environment in which every backend call succeeds but
`SetCredentialsStore` fails with `errE`. -/
def envSetFails : BackendEnv :=
  ⟨fun _ _ => (EmptyCredential, none), fun _ _ _ => none, fun _ _ => none,
    fun _ => some errE⟩

end OrasCredentials

namespace OrasCredentials

/-! ### Theorems: fallback chain -/

/-- C3: in a fallback chain's `Get`, backends are consulted in order and the
first backend that errors stops the search: for any front segment of backends
that all answer the empty credential without error, a backend answering an
error `e` (with any credential `c` alongside) makes `Get` return the empty
credential with `e`, for every tail `rest` (so no further backend is tried, and
`c` is discarded); exactly `front.length + 1` backends are consulted. -/
theorem fallback_get_error_short_circuit
    (serverAddress : String) (front : List Store) (s : Store) (rest : List Store)
    (c : Credential) (e : GoError)
    (hfront : ∀ b ∈ front, b.get serverAddress = (EmptyCredential, none))
    (hs : s.get serverAddress = (c, some e)) :
    fallbackGetLoop (front ++ s :: rest) serverAddress = (EmptyCredential, some e)
    ∧ fallbackGetCount (front ++ s :: rest) serverAddress = front.length + 1 := by
  induction front with
  | nil =>
    constructor
    · simp [fallbackGetLoop, hs]
    · simp [fallbackGetCount, hs]
  | cons b bs ih =>
    have hb : b.get serverAddress = (EmptyCredential, none) := hfront b (by simp)
    have ihr := ih (fun x hx => hfront x (by simp [hx]))
    constructor
    · simp [fallbackGetLoop, hb, ihr.1]
    · have h2 : fallbackGetCount ((b :: bs) ++ s :: rest) serverAddress
          = 1 + fallbackGetCount (bs ++ s :: rest) serverAddress := by
        simp [fallbackGetCount, hb]
      rw [h2, ihr.2]
      simp only [List.length_cons]
      omega

/-- Witness for C3: with a first backend that errors with `errE` (returning
`credY` alongside) and a healthy second backend holding `credX`, `Get` returns
the empty credential with `errE` and consults exactly one backend. -/
theorem fallback_get_error_short_circuit_witness :
    (∀ b ∈ ([] : List Store), b.get "registry.example.com" = (EmptyCredential, none))
    ∧ storeErrE.get "registry.example.com" = (credY, some errE)
    ∧ fallbackGetLoop ([] ++ storeErrE :: [storeCredX]) "registry.example.com"
        = (EmptyCredential, some errE)
    ∧ fallbackGetCount ([] ++ storeErrE :: [storeCredX]) "registry.example.com"
        = ([] : List Store).length + 1 := by
  refine ⟨by simp, rfl, ?_⟩
  exact fallback_get_error_short_circuit "registry.example.com" [] storeErrE [storeCredX]
    credY errE (by simp) rfl

/-- C4: in a fallback chain's `Get` with no erroring backend, the result is the
credential of the first backend that answers a non-empty credential, for every
tail (later backends are not consulted); and if every backend answers the empty
credential without error, `Get` returns the empty credential with no error
after consulting them all. -/
theorem fallback_get_first_nonempty (serverAddress : String) :
    (∀ (front : List Store) (s : Store) (rest : List Store) (c : Credential),
      (∀ b ∈ front, b.get serverAddress = (EmptyCredential, none)) →
      s.get serverAddress = (c, none) → c ≠ EmptyCredential →
      fallbackGetLoop (front ++ s :: rest) serverAddress = (c, none)
      ∧ fallbackGetCount (front ++ s :: rest) serverAddress = front.length + 1)
    ∧ (∀ ss : List Store,
      (∀ b ∈ ss, b.get serverAddress = (EmptyCredential, none)) →
      fallbackGetLoop ss serverAddress = (EmptyCredential, none)
      ∧ fallbackGetCount ss serverAddress = ss.length) := by
  constructor
  · intro front s rest c hfront hs hc
    induction front with
    | nil =>
      constructor
      · simp [fallbackGetLoop, hs, hc]
      · simp [fallbackGetCount, hs, hc]
    | cons b bs ih =>
      have hb : b.get serverAddress = (EmptyCredential, none) := hfront b (by simp)
      have ihr := ih (fun x hx => hfront x (by simp [hx]))
      constructor
      · simp [fallbackGetLoop, hb, ihr.1]
      · have h2 : fallbackGetCount ((b :: bs) ++ s :: rest) serverAddress
            = 1 + fallbackGetCount (bs ++ s :: rest) serverAddress := by
          simp [fallbackGetCount, hb]
        rw [h2, ihr.2]
        simp only [List.length_cons]
        omega
  · intro ss hss
    induction ss with
    | nil => simp [fallbackGetLoop, fallbackGetCount]
    | cons b bs ih =>
      have hb : b.get serverAddress = (EmptyCredential, none) := hss b (by simp)
      have ihr := ih (fun x hx => hss x (by simp [hx]))
      constructor
      · simp [fallbackGetLoop, hb, ihr.1]
      · have h2 : fallbackGetCount (b :: bs) serverAddress
            = 1 + fallbackGetCount bs serverAddress := by
          simp [fallbackGetCount, hb]
        rw [h2, ihr.2]
        simp only [List.length_cons]
        omega

/-- Witness for C4: with backends `[empty, credX, credY]`, `Get` returns
`credX` after consulting two backends; with the single empty backend, `Get`
returns the empty credential with no error. -/
theorem fallback_get_first_nonempty_witness :
    (fallbackGetLoop ([storeEmptyOK] ++ storeCredX :: [storeCredY]) "registry.example.com"
        = (credX, none)
      ∧ fallbackGetCount ([storeEmptyOK] ++ storeCredX :: [storeCredY]) "registry.example.com"
        = [storeEmptyOK].length + 1)
    ∧ (fallbackGetLoop [storeEmptyOK] "registry.example.com" = (EmptyCredential, none)
      ∧ fallbackGetCount [storeEmptyOK] "registry.example.com" = [storeEmptyOK].length) := by
  constructor
  · exact (fallback_get_first_nonempty "registry.example.com").1 [storeEmptyOK] storeCredX
      [storeCredY] credX (by intro b hb; rw [List.mem_singleton] at hb; subst hb; rfl) rfl
      (by decide)
  · exact (fallback_get_first_nonempty "registry.example.com").2 [storeEmptyOK]
      (by intro b hb; rw [List.mem_singleton] at hb; subst hb; rfl)

/-- C5: a fallback chain's `Put` and `Delete` delegate only to the primary
backend `stores[0]` and return its result verbatim; the result is independent
of the fallback tail, so no fallback backend is ever invoked. -/
theorem fallback_put_delete_primary_only (s : Store) (rest rest2 : List Store)
    (serverAddress : String) (cred : Credential) :
    storeWithFallbacks.Put ⟨s :: rest⟩ serverAddress cred = some (s.put serverAddress cred)
    ∧ storeWithFallbacks.Delete ⟨s :: rest⟩ serverAddress = some (s.delete serverAddress)
    ∧ storeWithFallbacks.Put ⟨s :: rest2⟩ serverAddress cred
        = storeWithFallbacks.Put ⟨s :: rest⟩ serverAddress cred
    ∧ storeWithFallbacks.Delete ⟨s :: rest2⟩ serverAddress
        = storeWithFallbacks.Delete ⟨s :: rest⟩ serverAddress :=
  ⟨rfl, rfl, rfl, rfl⟩

/-- C6: constructing a fallback chain with zero fallbacks returns the primary
store itself, not a wrapping composite, and every operation on the constructed
value coincides with calling the primary directly, error values included. -/
theorem zero_fallback_returns_primary (primary : Store) (serverAddress : String)
    (cred : Credential) :
    NewStoreWithFallbacks primary [] = .base primary
    ∧ (NewStoreWithFallbacks primary []).getOp serverAddress = primary.get serverAddress
    ∧ (NewStoreWithFallbacks primary []).putOp serverAddress cred
        = some (primary.put serverAddress cred)
    ∧ (NewStoreWithFallbacks primary []).deleteOp serverAddress
        = some (primary.delete serverAddress) :=
  ⟨rfl, rfl, rfl, rfl⟩

/-- C10: constructing a fallback chain with at least one fallback yields the
composite whose backend list is the primary followed by the fallbacks — length
one plus the number of fallbacks, primary first — so the `stores[0]` access of
`Put` and `Delete` is in bounds (no panic, result is `some`) and hits the
primary. -/
theorem chain_primary_first_nonempty (primary : Store) (fallbacks : List Store)
    (h : fallbacks ≠ []) (serverAddress : String) (cred : Credential) :
    NewStoreWithFallbacks primary fallbacks = .chain ⟨primary :: fallbacks⟩
    ∧ (primary :: fallbacks).length = 1 + fallbacks.length
    ∧ storeWithFallbacks.Put ⟨primary :: fallbacks⟩ serverAddress cred
        = some (primary.put serverAddress cred)
    ∧ storeWithFallbacks.Delete ⟨primary :: fallbacks⟩ serverAddress
        = some (primary.delete serverAddress) := by
  refine ⟨?_, by simp [Nat.add_comm], rfl, rfl⟩
  simp [NewStoreWithFallbacks, List.length_eq_zero, h]

/-- Witness for C10: with one fallback, the construction wraps
`[primary, fallback]`, of length two, and `Put`/`Delete` hit the primary. -/
theorem chain_primary_first_nonempty_witness :
    ([storeCredY] : List Store) ≠ []
    ∧ (NewStoreWithFallbacks storeCredX [storeCredY] = .chain ⟨storeCredX :: [storeCredY]⟩
      ∧ (storeCredX :: [storeCredY]).length = 1 + ([storeCredY] : List Store).length
      ∧ storeWithFallbacks.Put ⟨storeCredX :: [storeCredY]⟩ "registry.example.com" credX
          = some (storeCredX.put "registry.example.com" credX)
      ∧ storeWithFallbacks.Delete ⟨storeCredX :: [storeCredY]⟩ "registry.example.com"
          = some (storeCredX.delete "registry.example.com")) :=
  ⟨by simp, chain_primary_first_nonempty storeCredX [storeCredY] (by simp)
    "registry.example.com" credX⟩

/-! ### Helper lemmas: resolver state and trace -/

theorem countSetCalls_append (t1 t2 : List ExtCall) :
    countSetCalls (t1 ++ t2) = countSetCalls t1 + countSetCalls t2 := by
  simp [countSetCalls, List.filter_append]

theorem put_budget (env : BackendEnv) (ds : dynamicStore) (a : String) (c : Credential) :
    countSetCalls (dynamicStore.Put env ds a c).2.2
      + onceBudget (dynamicStore.Put env ds a c).2.1 ≤ onceBudget ds := by
  unfold dynamicStore.Put putPersistPhase onceBudget
  cases h : env.backendPutRes (ds.getStore a) a c
  · by_cases h1 : ds.onceFired
    · simp [h, h1, countSetCalls, isSetCredsStoreCall]
    · by_cases h2 : ds.detectedCredsStore = ""
      · simp [h, h1, h2, countSetCalls, isSetCredsStoreCall]
      · cases h3 : env.setCredsStoreRes ds.detectedCredsStore <;>
          simp [h, h1, h2, h3, countSetCalls, isSetCredsStoreCall]
  · simp [h, countSetCalls, isSetCredsStoreCall]

theorem put_detected_preserved (env : BackendEnv) (ds : dynamicStore) (a : String)
    (c : Credential) :
    (dynamicStore.Put env ds a c).2.1.detectedCredsStore = ds.detectedCredsStore := by
  unfold dynamicStore.Put putPersistPhase
  cases h : env.backendPutRes (ds.getStore a) a c
  · by_cases h1 : ds.onceFired
    · simp [h, h1]
    · by_cases h2 : ds.detectedCredsStore = ""
      · simp [h, h1, h2]
      · cases h3 : env.setCredsStoreRes ds.detectedCredsStore <;> simp [h, h1, h2, h3]
  · simp [h]

theorem put_no_set_of_detected_empty (env : BackendEnv) (ds : dynamicStore) (a : String)
    (c : Credential) (hd : ds.detectedCredsStore = "") :
    countSetCalls (dynamicStore.Put env ds a c).2.2 = 0 := by
  unfold dynamicStore.Put putPersistPhase
  cases h : env.backendPutRes (ds.getStore a) a c
  · by_cases h1 : ds.onceFired <;> simp [h, h1, hd, countSetCalls, isSetCredsStoreCall]
  · simp [h, countSetCalls, isSetCredsStoreCall]

theorem put_no_set_of_fired (env : BackendEnv) (ds : dynamicStore) (a : String)
    (c : Credential) (hf : ds.onceFired = true) :
    countSetCalls (dynamicStore.Put env ds a c).2.2 = 0 := by
  unfold dynamicStore.Put putPersistPhase
  cases h : env.backendPutRes (ds.getStore a) a c <;>
    simp [h, hf, countSetCalls, isSetCredsStoreCall]

theorem step_budget (env : BackendEnv) (ds : dynamicStore) (op : ResolverOp) :
    countSetCalls (dynamicStore.step env ds op).2
      + onceBudget (dynamicStore.step env ds op).1 ≤ onceBudget ds := by
  cases op with
  | getOp a =>
    simp [dynamicStore.step, dynamicStore.Get, countSetCalls, isSetCredsStoreCall]
  | putOp a c => simpa [dynamicStore.step] using put_budget env ds a c
  | deleteOp a =>
    simp [dynamicStore.step, dynamicStore.Delete, countSetCalls, isSetCredsStoreCall]

theorem step_detected_preserved (env : BackendEnv) (ds : dynamicStore) (op : ResolverOp) :
    (dynamicStore.step env ds op).1.detectedCredsStore = ds.detectedCredsStore := by
  cases op with
  | getOp a => rfl
  | putOp a c => simpa [dynamicStore.step] using put_detected_preserved env ds a c
  | deleteOp a => rfl

theorem step_no_set_of_detected_empty (env : BackendEnv) (ds : dynamicStore)
    (op : ResolverOp) (hd : ds.detectedCredsStore = "") :
    countSetCalls (dynamicStore.step env ds op).2 = 0 := by
  cases op with
  | getOp a =>
    simp [dynamicStore.step, dynamicStore.Get, countSetCalls, isSetCredsStoreCall]
  | putOp a c => simpa [dynamicStore.step] using put_no_set_of_detected_empty env ds a c hd
  | deleteOp a =>
    simp [dynamicStore.step, dynamicStore.Delete, countSetCalls, isSetCredsStoreCall]

theorem run_budget (env : BackendEnv) (ops : List ResolverOp) (ds : dynamicStore) :
    countSetCalls (dynamicStore.run env ds ops).2
      + onceBudget (dynamicStore.run env ds ops).1 ≤ onceBudget ds := by
  induction ops generalizing ds with
  | nil => simp [dynamicStore.run, countSetCalls]
  | cons op ops ih =>
    have h1 := step_budget env ds op
    have h2 := ih (dynamicStore.step env ds op).1
    simp only [dynamicStore.run, countSetCalls_append]
    omega

theorem run_detected_preserved (env : BackendEnv) (ops : List ResolverOp)
    (ds : dynamicStore) :
    (dynamicStore.run env ds ops).1.detectedCredsStore = ds.detectedCredsStore := by
  induction ops generalizing ds with
  | nil => rfl
  | cons op ops ih =>
    have h1 := step_detected_preserved env ds op
    have h2 := ih (dynamicStore.step env ds op).1
    simp only [dynamicStore.run]
    rw [h2, h1]


theorem run_no_set_of_detected_empty (env : BackendEnv) (ops : List ResolverOp)
    (ds : dynamicStore) (hd : ds.detectedCredsStore = "") :
    countSetCalls (dynamicStore.run env ds ops).2 = 0 := by
  induction ops generalizing ds with
  | nil => simp [dynamicStore.run, countSetCalls]
  | cons op ops ih =>
    have h1 := step_no_set_of_detected_empty env ds op hd
    have hd1 : (dynamicStore.step env ds op).1.detectedCredsStore = "" := by
      rw [step_detected_preserved env ds op, hd]
    have h2 := ih (dynamicStore.step env ds op).1 hd1
    simp only [dynamicStore.run, countSetCalls_append]
    omega

theorem getHelperSuffix_of_detected_empty (ds : dynamicStore) (a : String)
    (hd : ds.detectedCredsStore = "") :
    ds.getHelperSuffix a
      = (if ds.config.GetCredentialHelper a ≠ "" then ds.config.GetCredentialHelper a
         else ds.config.CredentialsStore) := by
  unfold dynamicStore.getHelperSuffix
  by_cases h1 : ds.config.GetCredentialHelper a = ""
  · by_cases h2 : ds.config.CredentialsStore = "" <;> simp [h1, h2, hd]
  · simp [h1]

/-! ### Theorems: resolver -/

/-- C1: for every server address, the resolver selects the delegated backend by
strict priority — the per-address helper if configured, else the global helper,
else the detected platform default, else the plaintext file backend with
`disablePut = !allowPlaintextPut` — and `Get`, `Put` and `Delete` all delegate
to that selected backend. -/
theorem resolver_selection_priority (env : BackendEnv) (ds : dynamicStore)
    (serverAddress : String) (cred : Credential) :
    ds.getStore serverAddress
      = specSelect (ds.config.GetCredentialHelper serverAddress)
          ds.config.CredentialsStore ds.detectedCredsStore ds.options.allowPlaintextPut
    ∧ (dynamicStore.Get env ds serverAddress).2
        = [.getCall (ds.getStore serverAddress) serverAddress]
    ∧ (dynamicStore.Put env ds serverAddress cred).2.2.head?
        = some (.putCall (ds.getStore serverAddress) serverAddress cred)
    ∧ (dynamicStore.Delete env ds serverAddress).2
        = [.deleteCall (ds.getStore serverAddress) serverAddress] := by
  refine ⟨?_, rfl, ?_, rfl⟩
  · unfold dynamicStore.getStore dynamicStore.getHelperSuffix specSelect
    by_cases h1 : ds.config.GetCredentialHelper serverAddress = ""
    · by_cases h2 : ds.config.CredentialsStore = ""
      · by_cases h3 : ds.detectedCredsStore = "" <;> simp [h1, h2, h3]
      · simp [h1, h2]
    · simp [h1]
  · unfold dynamicStore.Put
    cases h : env.backendPutRes (ds.getStore serverAddress) serverAddress cred <;>
      simp [h]

/-- C2: over any operation sequence of a freshly constructed resolver,
`SetCredentialsStore` is invoked at most once; `Get` and `Delete` never invoke
it; a `Put` whose backend write fails returns that error with the resolver
state (hence the once-guard) untouched and no persist call; and any `Put` that
does invoke `SetCredentialsStore` had a successful backend write and an unfired
guard. -/
theorem persist_invoked_at_most_once :
    (∀ (env : BackendEnv) (cfg : Config) (opts : StoreOptions) (dh : String)
        (ops : List ResolverOp),
      countSetCalls (dynamicStore.run env (NewStore cfg opts dh) ops).2 ≤ 1)
    ∧ (∀ (env : BackendEnv) (ds : dynamicStore) (a : String),
      countSetCalls (dynamicStore.Get env ds a).2 = 0)
    ∧ (∀ (env : BackendEnv) (ds : dynamicStore) (a : String),
      countSetCalls (dynamicStore.Delete env ds a).2 = 0)
    ∧ (∀ (env : BackendEnv) (ds : dynamicStore) (a : String) (c : Credential)
        (e : GoError),
      env.backendPutRes (ds.getStore a) a c = some e →
      dynamicStore.Put env ds a c = (some e, ds, [.putCall (ds.getStore a) a c]))
    ∧ (∀ (env : BackendEnv) (ds : dynamicStore) (a : String) (c : Credential),
      1 ≤ countSetCalls (dynamicStore.Put env ds a c).2.2 →
      env.backendPutRes (ds.getStore a) a c = none ∧ ds.onceFired = false) := by
  refine ⟨?_, ?_, ?_, ?_, ?_⟩
  · intro env cfg opts dh ops
    have h := run_budget env ops (NewStore cfg opts dh)
    have hb : onceBudget (NewStore cfg opts dh) = 1 := rfl
    omega
  · intro env ds a
    simp [dynamicStore.Get, countSetCalls, isSetCredsStoreCall]
  · intro env ds a
    simp [dynamicStore.Delete, countSetCalls, isSetCredsStoreCall]
  · intro env ds a c e h
    unfold dynamicStore.Put
    simp [h]
  · intro env ds a c h
    cases hput : env.backendPutRes (ds.getStore a) a c with
    | some e =>
      exfalso
      have : countSetCalls (dynamicStore.Put env ds a c).2.2 = 0 := by
        unfold dynamicStore.Put
        simp [hput, countSetCalls, isSetCredsStoreCall]
      omega
    | none =>
      refine ⟨rfl, ?_⟩
      by_contra hf
      have hf1 : ds.onceFired = true := by
        cases hfired : ds.onceFired
        · exact absurd hfired hf
        · rfl
      have : countSetCalls (dynamicStore.Put env ds a c).2.2 = 0 :=
        put_no_set_of_fired env ds a c hf1
      omega

/-- Witness for C2: in an environment where every backend `Put` fails with
`errE`, a `Put` on the detected-default resolver returns `errE` verbatim, the
state is untouched, and the trace holds the single backend call. -/
theorem persist_invoked_at_most_once_witness :
    envPutFails.backendPutRes (dsDetected.getStore "registry.example.com")
        "registry.example.com" credX = some errE
    ∧ dynamicStore.Put envPutFails dsDetected "registry.example.com" credX
        = (some errE, dsDetected,
           [.putCall (dsDetected.getStore "registry.example.com")
             "registry.example.com" credX]) :=
  ⟨rfl, persist_invoked_at_most_once.2.2.2.1 envPutFails dsDetected
    "registry.example.com" credX errE rfl⟩

/-- C7: when the backend `Put` succeeds but the persist of the detected default
fails, that `Put` returns the persist failure wrapped with the
`failed to set credsStore` context; the trace holds exactly the one successful
backend write followed by the failed persist call (so the write is not
undone), the guard is left fired, and no later `Put` ever invokes
`SetCredentialsStore` again. -/
theorem persist_failure_wrapped (env : BackendEnv) (ds : dynamicStore)
    (serverAddress : String) (cred : Credential) (e : GoError)
    (hOnce : ds.onceFired = false)
    (hDet : ds.detectedCredsStore ≠ "")
    (hPut : env.backendPutRes (ds.getStore serverAddress) serverAddress cred = none)
    (hSet : env.setCredsStoreRes ds.detectedCredsStore = some e) :
    (dynamicStore.Put env ds serverAddress cred).1
      = some (.wrap "failed to set credsStore" e)
    ∧ (dynamicStore.Put env ds serverAddress cred).2.2
      = [.putCall (ds.getStore serverAddress) serverAddress cred,
         .setCredsStoreCall ds.detectedCredsStore]
    ∧ (dynamicStore.Put env ds serverAddress cred).2.1.onceFired = true
    ∧ (∀ (env2 : BackendEnv) (a2 : String) (c2 : Credential),
      countSetCalls
        (dynamicStore.Put env2 (dynamicStore.Put env ds serverAddress cred).2.1 a2 c2).2.2
        = 0) := by
  have hstep : dynamicStore.Put env ds serverAddress cred
      = (some (.wrap "failed to set credsStore" e), { ds with onceFired := true },
         [.putCall (ds.getStore serverAddress) serverAddress cred,
          .setCredsStoreCall ds.detectedCredsStore]) := by
    unfold dynamicStore.Put putPersistPhase
    simp [hPut, hOnce, hDet, hSet]
  refine ⟨by rw [hstep], by rw [hstep], by rw [hstep], ?_⟩
  intro env2 a2 c2
  exact put_no_set_of_fired env2 _ a2 c2 (by rw [hstep])

/-- Witness for C7: on the detected-default resolver in an environment whose
backend writes succeed but whose `SetCredentialsStore` fails with `errE`, the
first `Put` returns the wrapped persist failure, its trace is the backend write
followed by the persist attempt, the guard fires, and later `Put` calls never
persist again. -/
theorem persist_failure_wrapped_witness :
    dsDetected.onceFired = false
    ∧ dsDetected.detectedCredsStore ≠ ""
    ∧ envSetFails.backendPutRes (dsDetected.getStore "registry.example.com")
        "registry.example.com" credX = none
    ∧ envSetFails.setCredsStoreRes dsDetected.detectedCredsStore = some errE
    ∧ ((dynamicStore.Put envSetFails dsDetected "registry.example.com" credX).1
        = some (.wrap "failed to set credsStore" errE)
      ∧ (dynamicStore.Put envSetFails dsDetected "registry.example.com" credX).2.2
        = [.putCall (dsDetected.getStore "registry.example.com")
             "registry.example.com" credX,
           .setCredsStoreCall dsDetected.detectedCredsStore]
      ∧ (dynamicStore.Put envSetFails dsDetected "registry.example.com" credX).2.1.onceFired
        = true
      ∧ (∀ (env2 : BackendEnv) (a2 : String) (c2 : Credential),
        countSetCalls
          (dynamicStore.Put env2
            (dynamicStore.Put envSetFails dsDetected "registry.example.com" credX).2.1
            a2 c2).2.2 = 0)) :=
  ⟨rfl, by decide, rfl, rfl,
    persist_failure_wrapped envSetFails dsDetected "registry.example.com" credX errE
      rfl (by decide) rfl rfl⟩

/-- C8: a resolver constructed against a config that reports authentication
configured has an empty detected default, which every operation sequence
preserves; at every reachable state the helper suffix comes from the
per-address helper or the global helper only (selection step 3 never applies);
and `SetCredentialsStore` is never invoked during the resolver's lifetime. -/
theorem auth_configured_step3_unreachable (cfg : Config) (opts : StoreOptions)
    (dh : String) (hauth : cfg.IsAuthConfigured = true) :
    (NewStore cfg opts dh).detectedCredsStore = ""
    ∧ (∀ (env : BackendEnv) (ops : List ResolverOp),
      (dynamicStore.run env (NewStore cfg opts dh) ops).1.detectedCredsStore = "")
    ∧ (∀ (env : BackendEnv) (ops : List ResolverOp) (a : String),
      (dynamicStore.run env (NewStore cfg opts dh) ops).1.getHelperSuffix a
        = (if (dynamicStore.run env (NewStore cfg opts dh) ops).1.config.GetCredentialHelper a ≠ ""
           then (dynamicStore.run env (NewStore cfg opts dh) ops).1.config.GetCredentialHelper a
           else (dynamicStore.run env (NewStore cfg opts dh) ops).1.config.CredentialsStore))
    ∧ (∀ (env : BackendEnv) (ops : List ResolverOp),
      countSetCalls (dynamicStore.run env (NewStore cfg opts dh) ops).2 = 0) := by
  have hd : (NewStore cfg opts dh).detectedCredsStore = "" := by
    simp [NewStore, hauth]
  have hrun : ∀ (env : BackendEnv) (ops : List ResolverOp),
      (dynamicStore.run env (NewStore cfg opts dh) ops).1.detectedCredsStore = "" := by
    intro env ops
    rw [run_detected_preserved env ops (NewStore cfg opts dh), hd]
  refine ⟨hd, hrun, ?_, ?_⟩
  · intro env ops a
    exact getHelperSuffix_of_detected_empty _ a (hrun env ops)
  · intro env ops
    exact run_no_set_of_detected_empty env ops (NewStore cfg opts dh) hd

/-- Witness for C8: the resolver over `cfgAuth` (auth configured, per-address
helper for `registry.example.com`, global helper `helper-b`) has no detected
default, keeps none over any run, resolves helper suffixes from steps 1 and 2
only, and never calls `SetCredentialsStore`. -/
theorem auth_configured_step3_unreachable_witness :
    cfgAuth.IsAuthConfigured = true
    ∧ ((NewStore cfgAuth ⟨false⟩ "osxkeychain").detectedCredsStore = ""
      ∧ (∀ (env : BackendEnv) (ops : List ResolverOp),
        (dynamicStore.run env (NewStore cfgAuth ⟨false⟩ "osxkeychain") ops).1.detectedCredsStore = "")
      ∧ (∀ (env : BackendEnv) (ops : List ResolverOp) (a : String),
        (dynamicStore.run env (NewStore cfgAuth ⟨false⟩ "osxkeychain") ops).1.getHelperSuffix a
          = (if (dynamicStore.run env (NewStore cfgAuth ⟨false⟩ "osxkeychain") ops).1.config.GetCredentialHelper a ≠ ""
             then (dynamicStore.run env (NewStore cfgAuth ⟨false⟩ "osxkeychain") ops).1.config.GetCredentialHelper a
             else (dynamicStore.run env (NewStore cfgAuth ⟨false⟩ "osxkeychain") ops).1.config.CredentialsStore))
      ∧ (∀ (env : BackendEnv) (ops : List ResolverOp),
        countSetCalls (dynamicStore.run env (NewStore cfgAuth ⟨false⟩ "osxkeychain") ops).2 = 0)) :=
  ⟨rfl, auth_configured_step3_unreachable cfgAuth ⟨false⟩ "osxkeychain" rfl⟩

end OrasCredentials
